import Mathlib

/-!
Verification of the `mdtable` library (src/lib.rs): a Markdown-style table
builder and renderer.  The Rust code is shallowly embedded below:

* `Alignment` with `from_str` (the `FromStr` impl), `as_ref` (the
  `AsRef<str>` impl) and `default_row`;
* `Row F R W` for `Row<F, R, WIDTH>` with `widths` and `max`;
* `cell` for the inner `cell` helper of the `Display` impl of `FormatRow`
  (which mirrors Rust `Formatter::pad`: no truncation when the text is at
  least as long as the width; center splits the padding as `padding / 2`
  before and `(padding + 1) / 2` after);
* `FormatRow.render` for `Display for FormatRow`, `Table.render` for
  `Display for Table` (each `writeln!` appends a newline);
* `Builder` with `update_widths`, `set_header` (Rust `header`),
  `set_alignments` (Rust `alignments`), `default_alignments`, `row` and
  `finish`.  Rust `assert!` failures and `Option::unwrap` panics are
  modelled as `none` results.

Lengths are modelled by `String.length`.  All cell data in the claims is
ASCII, where Rust `str::len` and the char count used by `Formatter::pad`
agree with `String.length`.
-/

namespace MdTable

inductive Alignment : Type where
  | Left : Alignment
  | Center : Alignment
  | Right : Alignment
deriving DecidableEq

/-- `impl FromStr for Alignment`: the four recognized marker strings. -/
def Alignment.from_str (s : String) : Option Alignment :=
  if s = "---" then some .Left
  else if s = ":---" then some .Left
  else if s = ":---:" then some .Center
  else if s = "---:" then some .Right
  else none

/-- `impl AsRef<str> for Alignment`: canonical marker text. -/
def Alignment.as_ref : Alignment → String
  | .Left => "---"
  | .Center => ":---:"
  | .Right => "---:"

/-- Rust's `AsRef<str>` trait bound, for the types used as cells. -/
class AsRefStr (α : Type) where
  as_ref : α → String

instance : AsRefStr String := ⟨fun s => s⟩

instance : AsRefStr Alignment := ⟨Alignment.as_ref⟩

/-- `Row<F, R, WIDTH>`: a label cell plus `W` data cells. -/
structure Row (F R : Type) (W : Nat) : Type where
  header : F
  content : Fin W → R

/-- `Alignment::default_row`: label `Left`, every data column `Right`. -/
def Alignment.default_row (W : Nat) : Row Alignment Alignment W :=
  ⟨.Left, fun _ => .Right⟩

/-- `Row::widths`: per-cell text lengths. -/
def Row.widths {F R : Type} {W : Nat} [AsRefStr F] [AsRefStr R]
    (r : Row F R W) : Row Nat Nat W :=
  ⟨(AsRefStr.as_ref r.header).length, fun i => (AsRefStr.as_ref (r.content i)).length⟩

/-- `Row::max`: slot-wise maximum of two same-shaped numeric rows. -/
def Row.max {W : Nat} (lhs rhs : Row Nat Nat W) : Row Nat Nat W :=
  ⟨Nat.max lhs.header rhs.header, fun i => Nat.max (lhs.content i) (rhs.content i)⟩

def spaces (n : Nat) : String :=
  String.mk (List.replicate n ' ')

/-- The inner `cell` function of `Display for FormatRow`, together with the
behavior of Rust `Formatter::pad` on `{:<width$}`, `{:^width$}`, `{:>width$}`:
text at least as long as the width is written unchanged; otherwise the
missing `padding` is all trailing for `Left`, all leading for `Right`, and
split `padding / 2` leading, `(padding + 1) / 2` trailing for `Center`. -/
def cell (data : String) (width : Nat) (align : Alignment) : String :=
  if width ≤ data.length then data
  else
    let padding := width - data.length
    match align with
    | .Left => data ++ spaces padding
    | .Center => spaces (padding / 2) ++ (data ++ spaces ((padding + 1) / 2))
    | .Right => spaces padding ++ data

/-- `Display for FormatRow`: the padded label cell, then for each data column
the separator and the padded data cell, written left to right. -/
def FormatRow.render {H C : Type} {W : Nat} [AsRefStr H] [AsRefStr C]
    (content : Row H C W) (widths : Row Nat Nat W)
    (alignments : Row Alignment Alignment W) : String :=
  (List.ofFn fun i : Fin W =>
      " | " ++ cell (AsRefStr.as_ref (content.content i)) (widths.content i)
        (alignments.content i)).foldl
    (fun acc s => acc ++ s)
    (cell (AsRefStr.as_ref content.header) widths.header alignments.header)

/-- `Table<LH, TH, T, WIDTH>`. -/
structure Table (LH TH T : Type) (W : Nat) : Type where
  header : Row LH TH W
  alignments : Row Alignment Alignment W
  content : List (Row LH T W)
  widths : Row Nat Nat W

/-- `Display for Table`: header line, alignment-marker line, then every
content row, each written with `writeln!` (so each followed by `"\n"`). -/
def Table.render {LH TH T : Type} {W : Nat} [AsRefStr LH] [AsRefStr TH]
    [AsRefStr T] (t : Table LH TH T W) : String :=
  FormatRow.render t.header t.widths t.alignments ++ "\n" ++
    (FormatRow.render t.alignments t.widths t.alignments ++ "\n" ++
      String.join (t.content.map fun r =>
        FormatRow.render r t.widths t.alignments ++ "\n"))

theorem spaces_length (n : Nat) : (spaces n).length = n := by
  simp [spaces, String.length]

theorem cell_length (data : String) (width : Nat) (align : Alignment) :
    (cell data width align).length = Nat.max data.length width := by
  unfold cell
  by_cases h : width ≤ data.length
  · simp [h, Nat.max_eq_left h]
  · have hlt : data.length < width := Nat.lt_of_not_le h
    cases align <;>
      simp [h, String.length_append, spaces_length, Nat.max_eq_right (Nat.le_of_lt hlt)] <;>
      omega

/-- C5: for every rendered cell, under every alignment, the rendered text has
length `max(natural length, assigned width)`, and when the natural length is
at least the assigned width the text is emitted unchanged (no truncation). -/
theorem cell_length_max (data : String) (width : Nat) (align : Alignment) :
    (cell data width align).length = Nat.max data.length width ∧
      (width ≤ data.length → cell data width align = data) := by
  refine ⟨cell_length data width align, fun h => ?_⟩
  unfold cell
  simp [h]

/-- C5 witness at a concrete overlong cell. -/
theorem cell_length_max_witness :
    (cell "overflow" 3 Alignment.Center).length = Nat.max "overflow".length 3 ∧
      (3 ≤ "overflow".length → cell "overflow" 3 Alignment.Center = "overflow") :=
  cell_length_max "overflow" 3 Alignment.Center

/-- C6: centering text of length `L` into width `W ≥ L` emits
`⌊(W-L)/2⌋` leading spaces, the text, then `⌈(W-L)/2⌉ = (W-L+1)/2` trailing
spaces (the odd leftover space lands on the trailing side), for a total
length of exactly `W`. -/
theorem cell_center_split (data : String) (width : Nat) (h : data.length ≤ width) :
    cell data width Alignment.Center =
      spaces ((width - data.length) / 2) ++
        (data ++ spaces ((width - data.length + 1) / 2)) ∧
      (width - data.length) / 2 + (width - data.length + 1) / 2
          = width - data.length ∧
      (cell data width Alignment.Center).length = width := by
  refine ⟨?_, by omega, ?_⟩
  · by_cases hw : width ≤ data.length
    · have heq : data.length = width := Nat.le_antisymm h hw
      have h0 : width - data.length = 0 := by omega
      simp [cell, hw, h0, spaces]
    · simp [cell, hw]
  · rw [cell_length]
    exact Nat.max_eq_right h

/-- C6 witness: centering a 2-character text into width 5 (odd difference):
one leading space, two trailing spaces. -/
theorem cell_center_split_witness :
    "ab".length ≤ 5 ∧
      (cell "ab" 5 Alignment.Center =
          spaces ((5 - "ab".length) / 2) ++
            ("ab" ++ spaces ((5 - "ab".length + 1) / 2)) ∧
        (5 - "ab".length) / 2 + (5 - "ab".length + 1) / 2 = 5 - "ab".length ∧
        (cell "ab" 5 Alignment.Center).length = 5) :=
  ⟨by decide, cell_center_split "ab" 5 (by decide)⟩

/-- C7: alignment parsing succeeds on exactly the four recognized strings:
`"---"` and `":---"` parse to `Left`, `":---:"` to `Center`, `"---:"` to
`Right`, and every other string yields `none` (a recoverable failure). -/
theorem from_str_exact :
    Alignment.from_str "---" = some Alignment.Left ∧
      Alignment.from_str ":---" = some Alignment.Left ∧
      Alignment.from_str ":---:" = some Alignment.Center ∧
      Alignment.from_str "---:" = some Alignment.Right ∧
      ∀ s : String, s ≠ "---" → s ≠ ":---" → s ≠ ":---:" → s ≠ "---:" →
        Alignment.from_str s = none := by
  refine ⟨by decide, by decide, by decide, by decide, ?_⟩
  intro s h1 h2 h3 h4
  simp [Alignment.from_str, h1, h2, h3, h4]

/-- C7 witness: `"bogus"` is none of the four markers and fails to parse. -/
theorem from_str_exact_witness :
    ("bogus" : String) ≠ "---" ∧ ("bogus" : String) ≠ ":---" ∧
      ("bogus" : String) ≠ ":---:" ∧ ("bogus" : String) ≠ "---:" ∧
      Alignment.from_str "bogus" = none :=
  ⟨by decide, by decide, by decide, by decide,
    from_str_exact.2.2.2.2 "bogus" (by decide) (by decide) (by decide) (by decide)⟩

/-- C8: `from_str (as_ref a) = some a` for every alignment; `as_ref` emits
the canonical forms `"---"`, `":---:"`, `"---:"` and never `":---"`. -/
theorem marker_round_trip :
    (∀ a : Alignment, Alignment.from_str (Alignment.as_ref a) = some a) ∧
      Alignment.as_ref Alignment.Left = "---" ∧
      Alignment.as_ref Alignment.Center = ":---:" ∧
      Alignment.as_ref Alignment.Right = "---:" ∧
      ∀ a : Alignment, Alignment.as_ref a ≠ ":---" := by
  refine ⟨fun a => ?_, rfl, rfl, rfl, fun a => ?_⟩
  · cases a <;> decide
  · cases a <;> decide

/-- `Builder<LH, TH, T, WIDTH>`. -/
structure Builder (LH TH T : Type) (W : Nat) : Type where
  header : Option (Row LH TH W)
  alignments : Option (Row Alignment Alignment W)
  content : List (Row LH T W)
  widths : Row Nat Nat W

/-- `Builder::new`: empty builder, widths all zero. -/
def Builder.new (LH TH T : Type) (W : Nat) : Builder LH TH T W :=
  ⟨none, none, [], ⟨0, fun _ => 0⟩⟩

/-- `Builder::update_widths`: fold a width row into the running maximum. -/
def Builder.update_widths {LH TH T : Type} {W : Nat} (b : Builder LH TH T W)
    (w : Row Nat Nat W) : Builder LH TH T W :=
  { b with widths := Row.max b.widths w }

/-- `Builder::header`: `assert!(self.header.is_none())` modelled as `none` on
violation; folds the header cell lengths into the running widths. -/
def Builder.set_header {LH TH T : Type} {W : Nat} [AsRefStr LH] [AsRefStr TH]
    (b : Builder LH TH T W) (header : Row LH TH W) : Option (Builder LH TH T W) :=
  match b.header with
  | some _ => none
  | none => some { b.update_widths header.widths with header := some header }

/-- `Builder::alignments`: `assert!(self.alignments.is_none())` modelled as
`none` on violation; folds the marker text lengths into the running widths. -/
def Builder.set_alignments {LH TH T : Type} {W : Nat}
    (b : Builder LH TH T W) (alignments : Row Alignment Alignment W) :
    Option (Builder LH TH T W) :=
  match b.alignments with
  | some _ => none
  | none => some { b.update_widths alignments.widths with alignments := some alignments }

/-- `Builder::default_alignments`: same double-set fault; does NOT fold the
default markers into the running widths. -/
def Builder.default_alignments {LH TH T : Type} {W : Nat}
    (b : Builder LH TH T W) : Option (Builder LH TH T W) :=
  match b.alignments with
  | some _ => none
  | none => some { b with alignments := some (Alignment.default_row W) }

/-- `Builder::row`: append a content row and fold its cell lengths in. -/
def Builder.row {LH TH T : Type} {W : Nat} [AsRefStr LH] [AsRefStr T]
    (b : Builder LH TH T W) (r : Row LH T W) : Builder LH TH T W :=
  { b.update_widths r.widths with content := b.content ++ [r] }

/-- `Builder::finish`: `self.header.unwrap()` modelled as `none` when the
header was never set; `unwrap_or_else(Alignment::default_row)` on alignments. -/
def Builder.finish {LH TH T : Type} {W : Nat} (b : Builder LH TH T W) :
    Option (Table LH TH T W) :=
  match b.header with
  | none => none
  | some h => some ⟨h, b.alignments.getD (Alignment.default_row W), b.content, b.widths⟩

/-- One public mutating call on a `Builder`. -/
inductive BuilderOp (LH TH T : Type) (W : Nat) : Type where
  | set_header (h : Row LH TH W) : BuilderOp LH TH T W
  | set_alignments (a : Row Alignment Alignment W) : BuilderOp LH TH T W
  | default_alignments : BuilderOp LH TH T W
  | row (r : Row LH T W) : BuilderOp LH TH T W

def Builder.apply {LH TH T : Type} {W : Nat} [AsRefStr LH] [AsRefStr TH] [AsRefStr T]
    (b : Builder LH TH T W) : BuilderOp LH TH T W → Option (Builder LH TH T W)
  | .set_header h => b.set_header h
  | .set_alignments a => b.set_alignments a
  | .default_alignments => b.default_alignments
  | .row r => some (b.row r)

/-- Run a sequence of builder calls; a fault anywhere aborts with `none`. -/
def Builder.run {LH TH T : Type} {W : Nat} [AsRefStr LH] [AsRefStr TH] [AsRefStr T]
    (b : Builder LH TH T W) : List (BuilderOp LH TH T W) → Option (Builder LH TH T W)
  | [] => some b
  | op :: ops =>
    match b.apply op with
    | none => none
    | some b2 => b2.run ops

def BuilderOp.isSetHeader {LH TH T : Type} {W : Nat} :
    BuilderOp LH TH T W → Bool
  | .set_header _ => true
  | _ => false

def BuilderOp.isSetAlignments {LH TH T : Type} {W : Nat} :
    BuilderOp LH TH T W → Bool
  | .set_alignments _ => true
  | _ => false

def hasSetHeader {LH TH T : Type} {W : Nat} (ops : List (BuilderOp LH TH T W)) : Bool :=
  ops.any BuilderOp.isSetHeader

def hasSetAlignments {LH TH T : Type} {W : Nat} (ops : List (BuilderOp LH TH T W)) : Bool :=
  ops.any BuilderOp.isSetAlignments

/-- The builder-call sequence of the end-to-end example: header
`("Name", ["Age"])`, default alignments, rows `("Alice", ["30"])` and
`("Bo", ["7"])`. -/
def opsC1 : List (BuilderOp String String String 1) :=
  [.set_header ⟨"Name", fun _ => "Age"⟩, .default_alignments,
    .row ⟨"Alice", fun _ => "30"⟩, .row ⟨"Bo", fun _ => "7"⟩]

def tableC1 : Option (Table String String String 1) :=
  (Builder.run (Builder.new String String String 1) opsC1).bind Builder.finish

/-- C1 counterexample: in the end-to-end example the data column's width is
3 (the header cell `"Age"` is folded into the widths by `Builder::header`),
not 2, and the rendering is not the four claimed lines. -/
theorem finish_example_claim_false :
    tableC1.map (fun t => t.widths.content 0) = some 3 ∧ (3 : Nat) ≠ 2 ∧
      tableC1.map Table.render ≠
        some "Name  | Age\n---   | ---:\nAlice | 30\nBo    | 7\n" := by
  refine ⟨by decide, by decide, by decide⟩

/-- C1 amended: the end-to-end example yields widths label = 5 and data
column 0 = 3 (the maximum of `"Age"`, `"30"`, `"7"`), and renders as the
four lines `"Name  | Age"`, `"---   | ---:"`, `"Alice |  30"`,
`"Bo    |   7"`, each followed by a newline. -/
theorem finish_example :
    tableC1.map (fun t => (t.widths.header, t.widths.content 0)) = some (5, 3) ∧
      tableC1.map Table.render =
        some "Name  | Age\n---   | ---:\nAlice |  30\nBo    |   7\n" := by
  refine ⟨by decide, by decide⟩

/-- C9: builder misuse is a fault (modelled as `none`): `finish` on a builder
run that never set a header faults, a second `header` call faults, and a
second alignment-setting call faults for every combination of `alignments`
and `default_alignments`. -/
theorem builder_misuse_faults {LH TH T : Type} {W : Nat}
    [AsRefStr LH] [AsRefStr TH] [AsRefStr T] :
    (∀ (ops : List (BuilderOp LH TH T W)) (b : Builder LH TH T W),
        hasSetHeader ops = false →
        Builder.run (Builder.new LH TH T W) ops = some b → b.finish = none) ∧
      (∀ (b b' : Builder LH TH T W) (h h' : Row LH TH W),
        b.set_header h = some b' → b'.set_header h' = none) ∧
      (∀ (b b' : Builder LH TH T W) (a a' : Row Alignment Alignment W),
        b.set_alignments a = some b' → b'.set_alignments a' = none) ∧
      (∀ (b b' : Builder LH TH T W) (a : Row Alignment Alignment W),
        b.set_alignments a = some b' → b'.default_alignments = none) ∧
      (∀ (b b' : Builder LH TH T W) (a : Row Alignment Alignment W),
        b.default_alignments = some b' → b'.set_alignments a = none) ∧
      (∀ (b b' : Builder LH TH T W),
        b.default_alignments = some b' → b'.default_alignments = none) := by
  have hnone : ∀ (ops : List (BuilderOp LH TH T W)) (b b' : Builder LH TH T W),
      hasSetHeader ops = false → b.header = none →
      Builder.run b ops = some b' → b'.header = none := by
    intro ops
    induction ops with
    | nil =>
      intro b b' _ hb hrun
      simp [Builder.run] at hrun
      exact hrun ▸ hb
    | cons op ops ih =>
      intro b b' hno hb hrun
      simp only [hasSetHeader, List.any_cons, Bool.or_eq_false_iff] at hno
      cases op with
      | set_header h => simp [BuilderOp.isSetHeader] at hno
      | set_alignments a =>
        rw [Builder.run] at hrun
        cases ha : b.alignments with
        | some x => simp [Builder.apply, Builder.set_alignments, ha] at hrun
        | none =>
          simp only [Builder.apply, Builder.set_alignments, ha] at hrun
          refine ih _ b' hno.2 ?_ hrun
          exact hb
      | default_alignments =>
        rw [Builder.run] at hrun
        cases ha : b.alignments with
        | some x => simp [Builder.apply, Builder.default_alignments, ha] at hrun
        | none =>
          simp only [Builder.apply, Builder.default_alignments, ha] at hrun
          refine ih _ b' hno.2 ?_ hrun
          exact hb
      | row r =>
        rw [Builder.run] at hrun
        simp only [Builder.apply] at hrun
        refine ih _ b' hno.2 ?_ hrun
        exact hb
  refine ⟨?_, ?_, ?_, ?_, ?_, ?_⟩
  · intro ops b hno hrun
    have hb : b.header = none := hnone ops _ b hno rfl hrun
    simp [Builder.finish, hb]
  · intro b b' h h' hset
    cases hb : b.header with
    | some x => simp [Builder.set_header, hb] at hset
    | none =>
      simp only [Builder.set_header, hb, Option.some.injEq] at hset
      have : b'.header = some h := by rw [← hset]
      simp [Builder.set_header, this]
  · intro b b' a a' hset
    cases hb : b.alignments with
    | some x => simp [Builder.set_alignments, hb] at hset
    | none =>
      simp only [Builder.set_alignments, hb, Option.some.injEq] at hset
      have : b'.alignments = some a := by rw [← hset]
      simp [Builder.set_alignments, this]
  · intro b b' a hset
    cases hb : b.alignments with
    | some x => simp [Builder.set_alignments, hb] at hset
    | none =>
      simp only [Builder.set_alignments, hb, Option.some.injEq] at hset
      have : b'.alignments = some a := by rw [← hset]
      simp [Builder.default_alignments, this]
  · intro b b' a hset
    cases hb : b.alignments with
    | some x => simp [Builder.default_alignments, hb] at hset
    | none =>
      simp only [Builder.default_alignments, hb, Option.some.injEq] at hset
      have : b'.alignments = some (Alignment.default_row W) := by rw [← hset]
      simp [Builder.set_alignments, this]
  · intro b b' hset
    cases hb : b.alignments with
    | some x => simp [Builder.default_alignments, hb] at hset
    | none =>
      simp only [Builder.default_alignments, hb, Option.some.injEq] at hset
      have : b'.alignments = some (Alignment.default_row W) := by rw [← hset]
      simp [Builder.default_alignments, this]

def hRow : Row String String 1 := ⟨"a", fun _ => "b"⟩

def aRow : Row Alignment Alignment 1 := ⟨.Left, fun _ => .Center⟩

/-- The builder after `set_header hRow` on a new builder. -/
def bH2 : Builder String String String 1 := ⟨some hRow, none, [], ⟨1, fun _ => 1⟩⟩

/-- The builder after `set_alignments aRow` on a new builder. -/
def bA2 : Builder String String String 1 := ⟨none, some aRow, [], ⟨3, fun _ => 5⟩⟩

/-- The builder after `default_alignments` on a new builder. -/
def bD2 : Builder String String String 1 :=
  ⟨none, some (Alignment.default_row 1), [], ⟨0, fun _ => 0⟩⟩

/-- C9 witness: each fault at a concrete builder state. -/
theorem builder_misuse_faults_witness :
    bD2.finish = none ∧ bH2.set_header hRow = none ∧
      bA2.set_alignments aRow = none ∧ bA2.default_alignments = none ∧
      bD2.set_alignments aRow = none ∧ bD2.default_alignments = none :=
  ⟨builder_misuse_faults.1 [BuilderOp.default_alignments] bD2 (by decide) rfl,
    builder_misuse_faults.2.1 (Builder.new String String String 1) bH2 hRow hRow rfl,
    builder_misuse_faults.2.2.1 (Builder.new String String String 1) bA2 aRow aRow rfl,
    builder_misuse_faults.2.2.2.1 (Builder.new String String String 1) bA2 aRow rfl,
    builder_misuse_faults.2.2.2.2.1 (Builder.new String String String 1) bD2 aRow rfl,
    builder_misuse_faults.2.2.2.2.2 (Builder.new String String String 1) bD2 rfl⟩

/-- C10: if the header is set and alignments were never set, `finish` does
not fault and substitutes the default alignment row: label `Left`, every
data column `Right`. -/
theorem finish_defaults_alignments {LH TH T : Type} {W : Nat}
    (b : Builder LH TH T W) (h : Row LH TH W)
    (hh : b.header = some h) (ha : b.alignments = none) :
    b.finish = some ⟨h, ⟨Alignment.Left, fun _ => Alignment.Right⟩,
      b.content, b.widths⟩ := by
  simp [Builder.finish, hh, ha, Alignment.default_row]

/-- C10 witness: finishing a builder that only set a header. -/
theorem finish_defaults_alignments_witness :
    bH2.header = some hRow ∧ bH2.alignments = none ∧
      bH2.finish = some ⟨hRow, ⟨Alignment.Left, fun _ => Alignment.Right⟩,
        bH2.content, bH2.widths⟩ :=
  ⟨rfl, rfl, finish_defaults_alignments bH2 hRow rfl rfl⟩

/-- Slot-wise order on width rows. -/
def Row.le {W : Nat} (a b : Row Nat Nat W) : Prop :=
  a.header ≤ b.header ∧ ∀ i, a.content i ≤ b.content i

theorem Row.eq_of {F R : Type} {W : Nat} {a b : Row F R W}
    (h1 : a.header = b.header) (h2 : ∀ i, a.content i = b.content i) : a = b := by
  cases a
  cases b
  simp only [mk.injEq]
  exact ⟨h1, funext h2⟩

theorem Row.le_refl {W : Nat} (a : Row Nat Nat W) : Row.le a a :=
  ⟨Nat.le_refl _, fun _ => Nat.le_refl _⟩

theorem Row.le_trans {W : Nat} {a b c : Row Nat Nat W}
    (h1 : Row.le a b) (h2 : Row.le b c) : Row.le a c :=
  ⟨Nat.le_trans h1.1 h2.1, fun i => Nat.le_trans (h1.2 i) (h2.2 i)⟩

theorem Row.le_max_left {W : Nat} (a b : Row Nat Nat W) : Row.le a (Row.max a b) :=
  ⟨Nat.le_max_left _ _, fun _ => Nat.le_max_left _ _⟩

theorem Row.le_max_right {W : Nat} (a b : Row Nat Nat W) : Row.le b (Row.max a b) :=
  ⟨Nat.le_max_right _ _, fun _ => Nat.le_max_right _ _⟩

theorem Row.max_assoc {W : Nat} (a b c : Row Nat Nat W) :
    Row.max (Row.max a b) c = Row.max a (Row.max b c) :=
  Row.eq_of (Nat.max_assoc _ _ _) (fun _ => Nat.max_assoc _ _ _)

theorem Row.max_left_comm {W : Nat} (a b c : Row Nat Nat W) :
    Row.max a (Row.max b c) = Row.max b (Row.max a c) :=
  Row.eq_of (Nat.max_left_comm _ _ _) (fun _ => Nat.max_left_comm _ _ _)

theorem Row.max_zero {W : Nat} (a : Row Nat Nat W) :
    Row.max a ⟨0, fun _ => 0⟩ = a :=
  Row.eq_of (Nat.max_zero _) (fun _ => Nat.max_zero _)

theorem Row.zero_max {W : Nat} (a : Row Nat Nat W) :
    Row.max ⟨0, fun _ => 0⟩ a = a :=
  Row.eq_of (Nat.zero_max _) (fun _ => Nat.zero_max _)

/-- The width row an op folds into the running widths: header and content
rows their cell lengths, explicit alignment rows their marker lengths,
`default_alignments` nothing. -/
def BuilderOp.widthContribution {LH TH T : Type} {W : Nat}
    [AsRefStr LH] [AsRefStr TH] [AsRefStr T] :
    BuilderOp LH TH T W → Row Nat Nat W
  | .set_header h => h.widths
  | .set_alignments a => a.widths
  | .default_alignments => ⟨0, fun _ => 0⟩
  | .row r => r.widths

def opsWidths {LH TH T : Type} {W : Nat} [AsRefStr LH] [AsRefStr TH] [AsRefStr T]
    (ops : List (BuilderOp LH TH T W)) : Row Nat Nat W :=
  ops.foldr (fun op acc => Row.max op.widthContribution acc) ⟨0, fun _ => 0⟩

/-- The content rows an op sequence appends, in call order. -/
def rowsOf {LH TH T : Type} {W : Nat} : List (BuilderOp LH TH T W) → List (Row LH T W)
  | [] => []
  | .row r :: ops => r :: rowsOf ops
  | .set_header _ :: ops => rowsOf ops
  | .set_alignments _ :: ops => rowsOf ops
  | .default_alignments :: ops => rowsOf ops

/-- The first header row an op sequence sets, if any. -/
def hdrOf {LH TH T : Type} {W : Nat} : List (BuilderOp LH TH T W) → Option (Row LH TH W)
  | [] => none
  | .set_header h :: _ => some h
  | .set_alignments _ :: ops => hdrOf ops
  | .default_alignments :: ops => hdrOf ops
  | .row _ :: ops => hdrOf ops

def listMax {W : Nat} (l : List (Row Nat Nat W)) : Row Nat Nat W :=
  l.foldr Row.max ⟨0, fun _ => 0⟩

def optWidths {LH TH : Type} {W : Nat} [AsRefStr LH] [AsRefStr TH] :
    Option (Row LH TH W) → Row Nat Nat W
  | none => ⟨0, fun _ => 0⟩
  | some h => h.widths

theorem widthContribution_le_opsWidths {LH TH T : Type} {W : Nat}
    [AsRefStr LH] [AsRefStr TH] [AsRefStr T]
    {op : BuilderOp LH TH T W} {ops : List (BuilderOp LH TH T W)}
    (h : op ∈ ops) : Row.le op.widthContribution (opsWidths ops) := by
  induction ops with
  | nil => cases h
  | cons op0 ops ih =>
    cases h with
    | head => exact Row.le_max_left _ _
    | tail _ hmem => exact Row.le_trans (ih hmem) (Row.le_max_right _ _)

theorem mem_of_hdrOf {LH TH T : Type} {W : Nat}
    {ops : List (BuilderOp LH TH T W)} {h : Row LH TH W}
    (hh : hdrOf ops = some h) : BuilderOp.set_header h ∈ ops := by
  induction ops with
  | nil => simp [hdrOf] at hh
  | cons op0 ops ih =>
    cases op0 with
    | set_header x =>
      simp only [hdrOf, Option.some.injEq] at hh
      exact hh ▸ List.mem_cons_self _ _
    | set_alignments a => exact List.mem_cons_of_mem _ (ih hh)
    | default_alignments => exact List.mem_cons_of_mem _ (ih hh)
    | row r => exact List.mem_cons_of_mem _ (ih hh)

theorem mem_of_rowsOf {LH TH T : Type} {W : Nat}
    {ops : List (BuilderOp LH TH T W)} {r : Row LH T W}
    (hr : r ∈ rowsOf ops) : BuilderOp.row r ∈ ops := by
  induction ops with
  | nil => cases hr
  | cons op0 ops ih =>
    cases op0 with
    | set_header x => exact List.mem_cons_of_mem _ (ih hr)
    | set_alignments a => exact List.mem_cons_of_mem _ (ih hr)
    | default_alignments => exact List.mem_cons_of_mem _ (ih hr)
    | row r0 =>
      rcases List.mem_cons.mp hr with h | h
      · exact h ▸ List.mem_cons_self _ _
      · exact List.mem_cons_of_mem _ (ih h)

theorem hasSetAlignments_of_mem {LH TH T : Type} {W : Nat}
    {ops : List (BuilderOp LH TH T W)} {a : Row Alignment Alignment W}
    (h : BuilderOp.set_alignments a ∈ ops) : hasSetAlignments ops = true := by
  induction ops with
  | nil => cases h
  | cons op0 ops ih =>
    cases h with
    | head => simp [hasSetAlignments, BuilderOp.isSetAlignments]
    | tail _ hmem =>
      have := ih hmem
      simp only [hasSetAlignments, List.any_eq_true] at this ⊢
      rcases this with ⟨x, hx, hxs⟩
      exact ⟨x, List.mem_cons_of_mem _ hx, hxs⟩

theorem apply_set_header_eq {LH TH T : Type} {W : Nat}
    [AsRefStr LH] [AsRefStr TH] [AsRefStr T]
    {b b1 : Builder LH TH T W} {h : Row LH TH W}
    (hap : b.apply (BuilderOp.set_header h) = some b1) :
    b.header = none ∧
      b1 = ⟨some h, b.alignments, b.content, Row.max b.widths h.widths⟩ := by
  cases hb : b.header with
  | some x => simp [Builder.apply, Builder.set_header, hb] at hap
  | none =>
    simp only [Builder.apply, Builder.set_header, hb, Option.some.injEq] at hap
    exact ⟨rfl, hap.symm.trans rfl⟩

theorem apply_set_alignments_eq {LH TH T : Type} {W : Nat}
    [AsRefStr LH] [AsRefStr TH] [AsRefStr T]
    {b b1 : Builder LH TH T W} {a : Row Alignment Alignment W}
    (hap : b.apply (BuilderOp.set_alignments a) = some b1) :
    b.alignments = none ∧
      b1 = ⟨b.header, some a, b.content, Row.max b.widths a.widths⟩ := by
  cases hb : b.alignments with
  | some x => simp [Builder.apply, Builder.set_alignments, hb] at hap
  | none =>
    simp only [Builder.apply, Builder.set_alignments, hb, Option.some.injEq] at hap
    exact ⟨rfl, hap.symm.trans rfl⟩

theorem apply_default_alignments_eq {LH TH T : Type} {W : Nat}
    [AsRefStr LH] [AsRefStr TH] [AsRefStr T]
    {b b1 : Builder LH TH T W}
    (hap : b.apply BuilderOp.default_alignments = some b1) :
    b.alignments = none ∧
      b1 = ⟨b.header, some (Alignment.default_row W), b.content, b.widths⟩ := by
  cases hb : b.alignments with
  | some x => simp [Builder.apply, Builder.default_alignments, hb] at hap
  | none =>
    simp only [Builder.apply, Builder.default_alignments, hb, Option.some.injEq] at hap
    exact ⟨rfl, hap.symm.trans rfl⟩

theorem apply_row_eq {LH TH T : Type} {W : Nat}
    [AsRefStr LH] [AsRefStr TH] [AsRefStr T]
    {b b1 : Builder LH TH T W} {r : Row LH T W}
    (hap : b.apply (BuilderOp.row r) = some b1) :
    b1 = ⟨b.header, b.alignments, b.content ++ [r], Row.max b.widths r.widths⟩ := by
  simp only [Builder.apply, Option.some.injEq] at hap
  exact hap.symm.trans rfl

/-- Everything a successful `run` guarantees about the resulting builder:
its widths are the old widths joined with every op's width contribution;
its content is the old content plus the `row` payloads in call order;
header and alignments persist once set (and then no later op of the same
kind occurs); and when no explicit `set_alignments` occurs the widths are
exactly the join of the header and content cell lengths. -/
theorem Builder.run_spec {LH TH T : Type} {W : Nat}
    [AsRefStr LH] [AsRefStr TH] [AsRefStr T] :
    ∀ (ops : List (BuilderOp LH TH T W)) (b b' : Builder LH TH T W),
      Builder.run b ops = some b' →
      b'.widths = Row.max b.widths (opsWidths ops) ∧
      b'.content = b.content ++ rowsOf ops ∧
      (∀ x, b.header = some x → b'.header = some x ∧ hdrOf ops = none) ∧
      (b.header = none → b'.header = hdrOf ops) ∧
      (∀ x, b.alignments = some x →
        b'.alignments = some x ∧ hasSetAlignments ops = false) ∧
      (hasSetAlignments ops = false →
        b'.widths = Row.max b.widths
          (Row.max (optWidths (hdrOf ops))
            (listMax ((rowsOf ops).map Row.widths)))) := by
  intro ops
  induction ops with
  | nil =>
    intro b b' hrun
    simp only [Builder.run, Option.some.injEq] at hrun
    subst hrun
    refine ⟨(Row.max_zero _).symm, by simp [rowsOf], fun x hx => ⟨hx, rfl⟩,
      fun hb => hb, fun x hx => ⟨hx, rfl⟩, fun _ => ?_⟩
    show b.widths = Row.max b.widths (Row.max ⟨0, fun _ => 0⟩ ⟨0, fun _ => 0⟩)
    rw [Row.zero_max, Row.max_zero]
  | cons op ops ih =>
    intro b b' hrun
    simp only [Builder.run] at hrun
    cases hap : b.apply op with
    | none => rw [hap] at hrun; simp at hrun
    | some b1 =>
      rw [hap] at hrun
      obtain ⟨ih1, ih2, ih3, ih4, ih5, ih6⟩ := ih b1 b' hrun
      cases op with
      | set_header h =>
        obtain ⟨hb, hb1⟩ := apply_set_header_eq hap
        subst hb1
        refine ⟨?_, ih2, ?_, ?_, ?_, ?_⟩
        · rw [ih1]
          exact Row.max_assoc _ _ _
        · intro x hx
          rw [hb] at hx
          cases hx
        · intro _
          exact (ih3 h rfl).1
        · exact fun x hx => ih5 x hx
        · intro hno
          have hhdr : hdrOf ops = none := (ih3 h rfl).2
          rw [ih6 hno, hhdr]
          show Row.max (Row.max b.widths (Row.widths h))
              (Row.max ⟨0, fun _ => 0⟩ (listMax ((rowsOf ops).map Row.widths))) = _
          rw [Row.zero_max, Row.max_assoc]
          rfl
      | set_alignments a =>
        obtain ⟨hb, hb1⟩ := apply_set_alignments_eq hap
        subst hb1
        refine ⟨?_, ih2, fun x hx => ih3 x hx, fun hx => ih4 hx, ?_, ?_⟩
        · rw [ih1]
          exact Row.max_assoc _ _ _
        · intro x hx
          rw [hb] at hx
          cases hx
        · intro hno
          simp [hasSetAlignments, BuilderOp.isSetAlignments] at hno
      | default_alignments =>
        obtain ⟨hb, hb1⟩ := apply_default_alignments_eq hap
        subst hb1
        refine ⟨?_, ih2, fun x hx => ih3 x hx, fun hx => ih4 hx, ?_, ?_⟩
        · rw [ih1]
          show Row.max b.widths (opsWidths ops)
              = Row.max b.widths (Row.max ⟨0, fun _ => 0⟩ (opsWidths ops))
          rw [Row.zero_max]
        · intro x hx
          rw [hb] at hx
          cases hx
        · intro hno
          exact ih6 hno
      | row r =>
        have hb1 := apply_row_eq hap
        subst hb1
        refine ⟨?_, ?_, fun x hx => ih3 x hx, fun hx => ih4 hx,
          fun x hx => ih5 x hx, ?_⟩
        · rw [ih1]
          exact Row.max_assoc _ _ _
        · rw [ih2, List.append_assoc]
          rfl
        · intro hno
          rw [ih6 hno, Row.max_assoc,
            Row.max_left_comm (Row.widths r) (optWidths (hdrOf ops))
              (listMax ((rowsOf ops).map Row.widths))]
          rfl

theorem run_alignments_of_mem {LH TH T : Type} {W : Nat}
    [AsRefStr LH] [AsRefStr TH] [AsRefStr T] :
    ∀ (ops : List (BuilderOp LH TH T W)) (b b' : Builder LH TH T W),
      Builder.run b ops = some b' →
      ∀ a, BuilderOp.set_alignments a ∈ ops → b'.alignments = some a := by
  intro ops
  induction ops with
  | nil =>
    intro b b' _ a hmem
    cases hmem
  | cons op ops ih =>
    intro b b' hrun a hmem
    simp only [Builder.run] at hrun
    cases hap : b.apply op with
    | none => rw [hap] at hrun; simp at hrun
    | some b1 =>
      rw [hap] at hrun
      rcases List.mem_cons.mp hmem with heq | hmem2
      · subst heq
        obtain ⟨_, hb1⟩ := apply_set_alignments_eq hap
        subst hb1
        exact ((Builder.run_spec ops _ b' hrun).2.2.2.2.1 a rfl).1
      · exact ih b1 b' hrun a hmem2

/-- C2 amended: for every successful builder-call sequence ending in
`finish`, the table's widths dominate the cell lengths of the header row and
of every content row; they dominate the alignment row's marker lengths
whenever the alignments were set explicitly via `alignments()` (and the
table's alignment row is then exactly the supplied one).  (As originally
stated the claim is false: with default alignments the marker lengths are
never folded in; see the counterexample.) -/
theorem widths_dominate {LH TH T : Type} {W : Nat}
    [AsRefStr LH] [AsRefStr TH] [AsRefStr T]
    (ops : List (BuilderOp LH TH T W)) (t : Table LH TH T W)
    (hrun : (Builder.run (Builder.new LH TH T W) ops).bind Builder.finish = some t) :
    Row.le (Row.widths t.header) t.widths ∧
      (∀ r ∈ t.content, Row.le (Row.widths r) t.widths) ∧
      (∀ a, BuilderOp.set_alignments a ∈ ops →
        t.alignments = a ∧ Row.le (Row.widths a) t.widths) := by
  rcases Option.bind_eq_some.mp hrun with ⟨b, hb, hfin⟩
  obtain ⟨h1, h2, h3, h4, h5, h6⟩ := Builder.run_spec ops _ b hb
  cases hh : b.header with
  | none => simp [Builder.finish, hh] at hfin
  | some h0 =>
    simp only [Builder.finish, hh, Option.some.injEq] at hfin
    subst hfin
    show Row.le (Row.widths h0) b.widths ∧
      (∀ r ∈ b.content, Row.le (Row.widths r) b.widths) ∧
      (∀ a, BuilderOp.set_alignments a ∈ ops →
        b.alignments.getD (Alignment.default_row W) = a ∧
          Row.le (Row.widths a) b.widths)
    have hw : b.widths = opsWidths ops := h1.trans (Row.zero_max _)
    have hhdr : hdrOf ops = some h0 := (h4 rfl).symm.trans hh
    have hcontent : b.content = rowsOf ops := h2
    refine ⟨?_, ?_, ?_⟩
    · rw [hw]
      exact widthContribution_le_opsWidths (mem_of_hdrOf hhdr)
    · intro r hr
      rw [hcontent] at hr
      rw [hw]
      exact widthContribution_le_opsWidths (mem_of_rowsOf hr)
    · intro a hmem
      have hal : b.alignments = some a := run_alignments_of_mem ops _ b hb a hmem
      rw [hal, hw]
      exact ⟨rfl, widthContribution_le_opsWidths hmem⟩

/-- The shortest sequence refuting C2 as stated: a tiny header and default
alignments, whose `"---:"` marker (length 4) exceeds the final width 1. -/
def opsC2 : List (BuilderOp String String String 1) :=
  [.set_header ⟨"x", fun _ => "y"⟩, .default_alignments]

def tableC2 : Option (Table String String String 1) :=
  (Builder.run (Builder.new String String String 1) opsC2).bind Builder.finish

/-- C2 counterexample: after header `("x", ["y"])` and `default_alignments`,
the finished table's data-column width is 1 while its alignment-row cell
renders as `"---:"` of length 4, so the widths do not dominate the alignment
row. -/
theorem widths_dominate_claim_false :
    tableC2.map (fun t => ((Row.widths t.alignments).content 0, t.widths.content 0))
        = some (4, 1) ∧
      ¬ (4 ≤ 1) :=
  ⟨by decide, by decide⟩

def rRow : Row String String 1 := ⟨"q", fun _ => "hello"⟩

def opsC2w : List (BuilderOp String String String 1) :=
  [.set_header hRow, .set_alignments aRow, .row rRow]

def tC2w : Table String String String 1 := ⟨hRow, aRow, [rRow], ⟨3, fun _ => 5⟩⟩

/-- C2 witness: a run with an explicit alignment row. -/
theorem widths_dominate_witness :
    (Builder.run (Builder.new String String String 1) opsC2w).bind Builder.finish
        = some tC2w ∧
      (Row.le (Row.widths tC2w.header) tC2w.widths ∧
        (∀ r ∈ tC2w.content, Row.le (Row.widths r) tC2w.widths) ∧
        (∀ a, BuilderOp.set_alignments a ∈ opsC2w →
          tC2w.alignments = a ∧ Row.le (Row.widths a) tC2w.widths)) :=
  ⟨rfl, widths_dominate opsC2w tC2w rfl⟩

/-- C3: when no explicit `alignments()` call occurs (defaults via
`default_alignments()` or the lazy default inside `finish()`), the finished
table's widths are exactly the elementwise maximum of the header's and the
content rows' cell lengths: the default marker row is never folded in. -/
theorem default_widths_exclude_markers {LH TH T : Type} {W : Nat}
    [AsRefStr LH] [AsRefStr TH] [AsRefStr T]
    (ops : List (BuilderOp LH TH T W)) (t : Table LH TH T W)
    (hno : hasSetAlignments ops = false)
    (hrun : (Builder.run (Builder.new LH TH T W) ops).bind Builder.finish = some t) :
    t.widths = Row.max (Row.widths t.header) (listMax (t.content.map Row.widths)) := by
  rcases Option.bind_eq_some.mp hrun with ⟨b, hb, hfin⟩
  obtain ⟨h1, h2, h3, h4, h5, h6⟩ := Builder.run_spec ops _ b hb
  cases hh : b.header with
  | none => simp [Builder.finish, hh] at hfin
  | some h0 =>
    simp only [Builder.finish, hh, Option.some.injEq] at hfin
    subst hfin
    show b.widths = Row.max (Row.widths h0) (listMax (b.content.map Row.widths))
    have hhdr : hdrOf ops = some h0 := (h4 rfl).symm.trans hh
    have hcontent : b.content = rowsOf ops := h2
    have hw2 : b.widths
        = Row.max (optWidths (hdrOf ops)) (listMax ((rowsOf ops).map Row.widths)) :=
      (h6 hno).trans (Row.zero_max _)
    rw [hhdr] at hw2
    rw [hcontent]
    exact hw2

/-- A run with only defaults whose final data-column width (1) is smaller
than the default marker `"---:"` (length 4). -/
def opsC3 : List (BuilderOp String String String 1) :=
  [.set_header ⟨"x", fun _ => "y"⟩, .default_alignments, .row ⟨"ab", fun _ => "z"⟩]

def tC3 : Table String String String 1 :=
  ⟨⟨"x", fun _ => "y"⟩, Alignment.default_row 1, [⟨"ab", fun _ => "z"⟩],
    ⟨2, fun _ => 1⟩⟩

/-- C3 witness: the defaults-only run yields widths `(2, [1])`, the
elementwise maximum over header and content cell lengths only (and `1 < 4`,
the default marker length). -/
theorem default_widths_exclude_markers_witness :
    hasSetAlignments opsC3 = false ∧
      (Builder.run (Builder.new String String String 1) opsC3).bind Builder.finish
        = some tC3 ∧
      tC3.widths = Row.max (Row.widths tC3.header) (listMax (tC3.content.map Row.widths)) :=
  ⟨rfl, rfl, default_widths_exclude_markers opsC3 tC3 rfl rfl⟩

/-- Join a list of already-padded cells with the literal separator `" | "`. -/
def joinWithSep : List String → String
  | [] => ""
  | [x] => x
  | x :: y :: ys => x ++ (" | " ++ joinWithSep (y :: ys))

/-- The padded cells of one rendered line: the label cell, then the `W` data
cells in order, each padded to its column's width under its column's
alignment. -/
def rowCells {H C : Type} {W : Nat} [AsRefStr H] [AsRefStr C]
    (content : Row H C W) (widths : Row Nat Nat W)
    (alignments : Row Alignment Alignment W) : List String :=
  cell (AsRefStr.as_ref content.header) widths.header alignments.header ::
    List.ofFn (fun i => cell (AsRefStr.as_ref (content.content i)) (widths.content i)
      (alignments.content i))

/-- The lines of a rendered table: header line, alignment-marker line (the
alignment row rendered as its marker texts with the same frozen widths and
alignments), then one line per content row in insertion order. -/
def Table.renderLines {LH TH T : Type} {W : Nat} [AsRefStr LH] [AsRefStr TH]
    [AsRefStr T] (t : Table LH TH T W) : List String :=
  joinWithSep (rowCells t.header t.widths t.alignments) ::
    joinWithSep (rowCells t.alignments t.widths t.alignments) ::
      t.content.map (fun r => joinWithSep (rowCells r t.widths t.alignments))

theorem joinWithSep_append_cons (a b : String) (l : List String) :
    joinWithSep ((a ++ b) :: l) = a ++ joinWithSep (b :: l) := by
  cases l with
  | nil => simp [joinWithSep]
  | cons c cs => simp [joinWithSep, String.append_assoc]

theorem foldl_sep_map (l : List String) (x : String) :
    List.foldl (fun acc s => acc ++ s) x (l.map (fun s => " | " ++ s))
      = joinWithSep (x :: l) := by
  induction l generalizing x with
  | nil => simp [joinWithSep]
  | cons y ys ih =>
    rw [List.map_cons, List.foldl_cons, ih, joinWithSep_append_cons,
      joinWithSep_append_cons]
    rfl

theorem formatRow_render_eq {H C : Type} {W : Nat} [AsRefStr H] [AsRefStr C]
    (content : Row H C W) (widths : Row Nat Nat W)
    (alignments : Row Alignment Alignment W) :
    FormatRow.render content widths alignments
      = joinWithSep (rowCells content widths alignments) := by
  have hofn : (List.ofFn fun i : Fin W =>
        " | " ++ cell (AsRefStr.as_ref (content.content i)) (widths.content i)
          (alignments.content i))
      = (List.ofFn fun i : Fin W =>
          cell (AsRefStr.as_ref (content.content i)) (widths.content i)
            (alignments.content i)).map (fun s => " | " ++ s) :=
    (List.map_ofFn _ _).symm
  rw [FormatRow.render, hofn, foldl_sep_map]
  rfl

theorem join_cons (s : String) (l : List String) :
    String.join (s :: l) = s ++ String.join l := by
  have hfold : ∀ (l : List String) (x : String),
      List.foldl (fun r s => r ++ s) x l
        = x ++ List.foldl (fun r s => r ++ s) "" l := by
    intro l
    induction l with
    | nil =>
      intro x
      simp
    | cons a as ih =>
      intro x
      rw [List.foldl_cons, ih (x ++ a), List.foldl_cons, ih ("" ++ a),
        String.append_assoc]
      simp
  show List.foldl (fun r s => r ++ s) ("" ++ s) l
    = s ++ List.foldl (fun r s => r ++ s) "" l
  rw [hfold l ("" ++ s)]
  simp

/-- C4: rendering a table produces exactly `2 + (number of content rows)`
lines, in order header line, alignment-marker line, then the content rows in
insertion order; the rendering is the concatenation of these lines each
followed by a newline, and each line is the padded label cell followed, for
each data column in order, by the literal separator `" | "` and that
column's padded cell. -/
theorem table_render_lines {LH TH T : Type} {W : Nat} [AsRefStr LH] [AsRefStr TH]
    [AsRefStr T] (t : Table LH TH T W) :
    t.render = String.join (t.renderLines.map (fun l => l ++ "\n")) ∧
      t.renderLines.length = 2 + t.content.length := by
  constructor
  · rw [Table.render, Table.renderLines, List.map_cons, List.map_cons, join_cons,
      join_cons, List.map_map, formatRow_render_eq, formatRow_render_eq]
    simp only [formatRow_render_eq]
    rfl
  · simp [Table.renderLines]
    omega

end MdTable
